import Mathlib

set_option autoImplicit false

/-!
Shallow embedding of the `Text` prompt engine of `src/prompts/text.rs`.

A Rust `String` is modelled as its sequence of `Char`s (`Str` below); all
operations of the engine work at the level of whole characters or grapheme
clusters, so no byte-level modelling is needed.  The external collaborators
(validator, suggestor, grapheme segmentation from the `unicode_segmentation`
crate) are parameters of the embedding, collected in `TextConfig`, matching
the spec's interface contracts for them.
-/

/-- A Rust `String`, modelled as its list of characters. -/
abbrev Str : Type := List Char

/-- The key events the engine distinguishes (`termion::event::Key` cases that
`text.rs` matches on: `Backspace`, `Up`, `Down`, `Char(c)`, `Ctrl(c)`, and a
catch-all for everything else). -/
inductive Key where
  | backspace
  | up
  | down
  | char (c : Char)
  | ctrl (c : Char)
  | other
  deriving DecidableEq

/-- The configuration of a prompt session: the `default`, `validator` and
`suggestor` fields of `Text`, plus the grapheme-cluster segmentation function
provided externally by the `unicode_segmentation` crate (`graphemes(true)`).
The validator follows `StringValidator : (&str) -> Result<(), &str>` and the
suggestor follows `Suggestor : (&str) -> Vec<String>`. -/
structure TextConfig where
  default : Option Str
  validator : Option (Str → Except Str Unit)
  suggestor : Option (Str → List Str)
  graphemes : Str → List Str

/-- The mutable state of `TextPrompt`: the buffer `content`, the validation
`error`, the current `suggested_options` and the selection `cursor_index`.
(The immutable configuration fields live in `TextConfig`.) -/
structure TextPrompt where
  content : Str
  error : Option Str
  suggested_options : List Str
  cursor_index : Nat
  deriving DecidableEq

/-- Rust's `usize::checked_sub`. -/
def checked_sub (a b : Nat) : Option Nat :=
  if b ≤ a then some (a - b) else none

/-- `From<Text> for TextPrompt` (text.rs:110-129): empty buffer, no error,
cursor at 0, suggestions seeded by running the suggestor on the empty string. -/
def initial_prompt (cfg : TextConfig) : TextPrompt :=
  { content := []
    error := none
    cursor_index := 0
    suggested_options :=
      match cfg.suggestor with
      | some s => s []
      | none => [] }

/-- `TextPrompt::update_suggestions` (text.rs:138-150): re-run the suggestor on
the current buffer, and clamp the cursor to `len - 1` when the new list is
non-empty and too short for the old cursor. -/
def update_suggestions (cfg : TextConfig) (p : TextPrompt) : TextPrompt :=
  match cfg.suggestor with
  | some suggestor =>
    let opts := suggestor p.content
    if opts.length > 0 ∧ opts.length ≤ p.cursor_index then
      { p with suggested_options := opts, cursor_index := opts.length - 1 }
    else
      { p with suggested_options := opts }
  | none => p

/-- `TextPrompt::move_cursor_up` (text.rs:152-158):
`cursor_index.checked_sub(1).or(len.checked_sub(1)).unwrap_or(0)`. -/
def move_cursor_up (p : TextPrompt) : TextPrompt :=
  { p with cursor_index :=
      match checked_sub p.cursor_index 1 with
      | some i => i
      | none =>
        match checked_sub p.suggested_options.length 1 with
        | some i => i
        | none => 0 }

/-- `TextPrompt::move_cursor_down` (text.rs:160-165): saturating increment,
wrapping to 0 when the result reaches or exceeds the list length. -/
def move_cursor_down (p : TextPrompt) : TextPrompt :=
  let ci := p.cursor_index + 1
  if ci ≥ p.suggested_options.length then
    { p with cursor_index := 0 }
  else
    { p with cursor_index := ci }

/-- `TextPrompt::on_change` (text.rs:167-193).  Backspace drops the last
grapheme cluster, `'\x17'`/`'\x18'` clear the line, any other character is
pushed; edits mark the state dirty, which triggers `update_suggestions`. -/
def on_change (cfg : TextConfig) (p : TextPrompt) (key : Key) : TextPrompt :=
  let step : TextPrompt × Bool :=
    match key with
    | .backspace =>
      let len := (cfg.graphemes p.content).length
      let new_len := len - 1
      ({ p with content := ((cfg.graphemes p.content).take new_len).flatten }, true)
    | .up => (move_cursor_up p, false)
    | .down => (move_cursor_down p, false)
    | .char c =>
      if c = '\x17' ∨ c = '\x18' then
        ({ p with content := [] }, true)
      else
        ({ p with content := p.content ++ [c] }, true)
    | _ => (p, false)
  if step.2 then update_suggestions cfg step.1 else step.1

/-- `TextPrompt::use_select_option` (text.rs:195-202): if the cursor points at
a suggestion, replace the buffer with it and refresh the suggestions. -/
def use_select_option (cfg : TextConfig) (p : TextPrompt) : TextPrompt :=
  match p.suggested_options.get? p.cursor_index with
  | some ans => update_suggestions cfg { p with content := ans }
  | none => p

/-- The validator/fallthrough tail of `get_final_answer` (text.rs:212-219):
run the validator if configured, otherwise accept the raw buffer. -/
def validate_content (cfg : TextConfig) (p : TextPrompt) : Except Str Str :=
  match cfg.validator with
  | some validator =>
    match validator p.content with
    | .ok _ => .ok p.content
    | .error err => .error err
  | none => .ok p.content

/-- `TextPrompt::get_final_answer` (text.rs:204-220): an empty buffer with a
configured default returns the default; everything else goes through the
validator. -/
def get_final_answer (cfg : TextConfig) (p : TextPrompt) : Except Str Str :=
  if p.content.isEmpty then
    match cfg.default with
    | some val => .ok val
    | none => validate_content cfg p
  else
    validate_content cfg p

/-- Outcome of handling one key in the session loop. -/
inductive StepResult where
  | cont (p : TextPrompt)
  | done (answer : Str)
  | interrupted
  deriving DecidableEq

/-- One iteration of the loop body of `TextPrompt::prompt` (text.rs:256-281):
`Ctrl('c')` interrupts, `'\t'` selects, `'\n'`/`'\r'` attempts a commit (a
validation failure stores the message in `error` and continues), and every
other key goes to `on_change`. -/
def prompt_step (cfg : TextConfig) (p : TextPrompt) (key : Key) : StepResult :=
  match key with
  | .ctrl c =>
    if c = 'c' then .interrupted
    else .cont (on_change cfg p (.ctrl c))
  | .char c =>
    if c = '\t' then .cont (use_select_option cfg p)
    else if c = '\x0a' ∨ c = '\x0d' then
      match get_final_answer cfg p with
      | .ok answer => .done answer
      | .error err => .cont { p with error := some err }
    else .cont (on_change cfg p (.char c))
  | key => .cont (on_change cfg p key)

/-- Outcome of running the session on a finite list of keys. -/
inductive SessionOutcome where
  | answer (s : Str)
  | interrupted
  | outOfInput (p : TextPrompt)
  deriving DecidableEq

/-- The session loop of `TextPrompt::prompt`, driven by a finite list of key
events (the loop ends with the committed answer or with an interruption). -/
def run_keys (cfg : TextConfig) (p : TextPrompt) : List Key → SessionOutcome
  | [] => .outOfInput p
  | k :: ks =>
    match prompt_step cfg p k with
    | .cont q => run_keys cfg q ks
    | .done a => .answer a
    | .interrupted => .interrupted

/-- The state reached after a list of keys, ignoring terminating steps (used
to name intermediate states of a session). -/
def run_state (cfg : TextConfig) (p : TextPrompt) : List Key → TextPrompt
  | [] => p
  | k :: ks =>
    match prompt_step cfg p k with
    | .cont q => run_state cfg q ks
    | _ => run_state cfg p ks

/-- States reachable from the initial prompt state by session-loop steps. -/
inductive Reachable (cfg : TextConfig) : TextPrompt → Prop where
  | init : Reachable cfg (initial_prompt cfg)
  | step {p q : TextPrompt} {k : Key} : Reachable cfg p →
      prompt_step cfg p k = .cont q → Reachable cfg q

/-- A grapheme-cluster segmentation: it partitions every string into non-empty
pieces whose concatenation is the original string (the contract satisfied by
`unicode_segmentation`'s `graphemes(true)`). -/
def IsSegmentation (g : Str → List Str) : Prop :=
  ∀ s : Str, (g s).flatten = s ∧ ∀ piece ∈ g s, piece ≠ []

/-- A character that the loop and `on_change` treat as plain text input:
not tab, not a commit key, not a clear-line control. -/
def plainChar (c : Char) : Prop :=
  c ≠ '\x09' ∧ c ≠ '\x0a' ∧ c ≠ '\x0d' ∧ c ≠ '\x17' ∧ c ≠ '\x18'

instance (c : Char) : Decidable (plainChar c) := by
  unfold plainChar; infer_instance

/-- The commit keys of the loop: `Char('\n')` and `Char('\r')`. -/
def commitKey (k : Key) : Prop :=
  k = .char '\x0a' ∨ k = .char '\x0d'

instance (k : Key) : Decidable (commitKey k) := by
  unfold commitKey; infer_instance

/-- A concrete grapheme segmentation used in tests and witnesses: every
character is its own cluster (the correct segmentation for plain ASCII). -/
def charGraphemes : Str → List Str := fun s => s.map (fun c => [c])

/-- A bare configuration: no default, no validator, no suggestor. -/
def bareCfg : TextConfig :=
  { default := none, validator := none, suggestor := none,
    graphemes := charGraphemes }



/-! Concrete configurations used by witnesses and counterexamples. -/

/-- A configuration with a default answer and an always-rejecting validator. -/
def defaultCfg : TextConfig :=
  { default := some ['d'], validator := some (fun _ => .error ['n', 'o']),
    suggestor := none, graphemes := charGraphemes }

/-- A configuration whose validator rejects everything with message `bad`. -/
def rejectCfg : TextConfig :=
  { default := none, validator := some (fun _ => .error ['b', 'a', 'd']),
    suggestor := none, graphemes := charGraphemes }

/-- A suggestor that offers six completions for the empty buffer and none for
any other buffer. -/
def sixSuggestor : Str → List Str := fun s =>
  if s.isEmpty then [['a'], ['b'], ['c'], ['d'], ['e'], ['f']] else []

/-- A configuration built around `sixSuggestor`. -/
def sixCfg : TextConfig :=
  { default := none, validator := none, suggestor := some sixSuggestor,
    graphemes := charGraphemes }

/-- A reachable session state with an empty suggestion list and a selection
index of 5: six suggestions are offered for the empty buffer, the user moves
down five times, then types a character, after which the suggestor returns no
suggestions and the index is left at 5 (the clamp in `update_suggestions`
only fires for non-empty lists). -/
def emptyListState : TextPrompt :=
  run_state sixCfg (initial_prompt sixCfg)
    [.down, .down, .down, .down, .down, .char 'x']

/-- The selection-index invariant: whenever the suggestion list is non-empty,
the selection index is strictly inside it. -/
def InBounds (p : TextPrompt) : Prop :=
  p.suggested_options ≠ [] → p.cursor_index < p.suggested_options.length

/-! Frame lemmas: which state components each operation leaves alone. -/

theorem update_suggestions_content (cfg : TextConfig) (p : TextPrompt) :
    (update_suggestions cfg p).content = p.content := by
  unfold update_suggestions
  cases cfg.suggestor
  · rfl
  · dsimp only
    split <;> rfl

theorem update_suggestions_error (cfg : TextConfig) (p : TextPrompt) :
    (update_suggestions cfg p).error = p.error := by
  unfold update_suggestions
  cases cfg.suggestor
  · rfl
  · dsimp only
    split <;> rfl

theorem move_cursor_up_frame (p : TextPrompt) :
    (move_cursor_up p).content = p.content ∧
    (move_cursor_up p).suggested_options = p.suggested_options ∧
    (move_cursor_up p).error = p.error :=
  ⟨rfl, rfl, rfl⟩

theorem move_cursor_down_frame (p : TextPrompt) :
    (move_cursor_down p).content = p.content ∧
    (move_cursor_down p).suggested_options = p.suggested_options ∧
    (move_cursor_down p).error = p.error := by
  unfold move_cursor_down
  dsimp only
  split <;> exact ⟨rfl, rfl, rfl⟩

theorem on_change_error (cfg : TextConfig) (p : TextPrompt) (k : Key) :
    (on_change cfg p k).error = p.error := by
  cases k with
  | backspace => simpa [on_change] using update_suggestions_error cfg _
  | up => simp [on_change, move_cursor_up]
  | down => exact (move_cursor_down_frame p).2.2
  | char c =>
    by_cases hc : c = '\x17' ∨ c = '\x18' <;>
      simpa [on_change, hc] using update_suggestions_error cfg _
  | ctrl c => rfl
  | other => rfl

theorem use_select_option_error (cfg : TextConfig) (p : TextPrompt) :
    (use_select_option cfg p).error = p.error := by
  unfold use_select_option
  cases p.suggested_options.get? p.cursor_index
  · rfl
  · exact update_suggestions_error cfg _


/-- C1: with a default configured and an empty buffer at commit time,
`get_final_answer` returns the default verbatim, the commit key ends the
session with that answer, and the result is the same whatever validator is
configured (so the validator is never consulted on this path). -/
theorem commit_empty_buffer_default (cfg : TextConfig) (d : Str)
    (hd : cfg.default = some d) (p : TextPrompt) (hc : p.content = []) :
    get_final_answer cfg p = .ok d ∧
    prompt_step cfg p (.char '\x0a') = .done d ∧
    ∀ v : Option (Str → Except Str Unit),
      get_final_answer { cfg with validator := v } p = .ok d := by
  have h1 : get_final_answer cfg p = .ok d := by
    simp [get_final_answer, hc, hd]
  refine ⟨h1, ?_, ?_⟩
  · simp [prompt_step, h1]
  · intro v
    simp [get_final_answer, hc, hd]

/-- Witness for C1: a concrete empty-buffer commit with an always-rejecting
validator still yields the default. -/
theorem commit_empty_buffer_default_witness :
    get_final_answer defaultCfg (initial_prompt defaultCfg) = .ok ['d'] :=
  (commit_empty_buffer_default defaultCfg ['d'] rfl (initial_prompt defaultCfg) rfl).1

/-- C2: when the configured validator rejects the buffer at a commit attempt
(and the empty-buffer/default shortcut does not apply), the commit key keeps
the session running (`.cont`), sets the error field to the validator's
message, and leaves the buffer, the selection index and the suggestion list
unchanged. -/
theorem commit_validation_failure (cfg : TextConfig) (p : TextPrompt)
    (v : Str → Except Str Unit) (err : Str)
    (hval : cfg.validator = some v) (hrej : v p.content = .error err)
    (hpath : p.content = [] → cfg.default = none) :
    prompt_step cfg p (.char '\x0a') = .cont { p with error := some err } ∧
    prompt_step cfg p (.char '\x0d') = .cont { p with error := some err } ∧
    ({ p with error := some err } : TextPrompt).content = p.content ∧
    ({ p with error := some err } : TextPrompt).cursor_index = p.cursor_index ∧
    ({ p with error := some err } : TextPrompt).suggested_options =
      p.suggested_options ∧
    ({ p with error := some err } : TextPrompt).error = some err := by
  have hv : validate_content cfg p = .error err := by
    simp [validate_content, hval, hrej]
  have h1 : get_final_answer cfg p = .error err := by
    unfold get_final_answer
    by_cases hc : p.content.isEmpty
    · have : cfg.default = none := hpath (List.isEmpty_iff.mp hc)
      simp [hc, this, hv]
    · simp [hc, hv]
  exact ⟨by simp [prompt_step, h1], by simp [prompt_step, h1], rfl, rfl, rfl, rfl⟩

/-- Witness for C2: a concrete rejected commit leaves the state intact except
for the stored error message. -/
theorem commit_validation_failure_witness :
    prompt_step rejectCfg ⟨['x'], none, [], 0⟩ (.char '\x0a') =
      .cont ⟨['x'], some ['b', 'a', 'd'], [], 0⟩ :=
  (commit_validation_failure rejectCfg ⟨['x'], none, [], 0⟩
    (fun _ => .error ['b', 'a', 'd']) ['b', 'a', 'd'] rfl rfl (fun _ => rfl)).1

/-! Helpers for the character-input induction. -/

theorem get_final_answer_no_validator (cfg : TextConfig)
    (hv : cfg.validator = none) (hd : cfg.default = none) (p : TextPrompt) :
    get_final_answer cfg p = .ok p.content := by
  simp [get_final_answer, validate_content, hv, hd]

theorem prompt_step_plain_char (cfg : TextConfig) (p : TextPrompt) (c : Char)
    (hc : plainChar c) :
    prompt_step cfg p (.char c) =
      .cont (update_suggestions cfg { p with content := p.content ++ [c] }) := by
  obtain ⟨h09, h0a, h0d, h17, h18⟩ := hc
  simp [prompt_step, on_change, h09, h0a, h0d, h17, h18]

theorem run_chars_append (cfg : TextConfig) (hv : cfg.validator = none)
    (hd : cfg.default = none) (cs : List Char) (p : TextPrompt)
    (hcs : ∀ c ∈ cs, plainChar c) :
    run_keys cfg p (cs.map Key.char ++ [Key.char '\x0a']) =
      .answer (p.content ++ cs) := by
  induction cs generalizing p with
  | nil =>
    simp [run_keys, prompt_step, get_final_answer_no_validator cfg hv hd p]
  | cons c cs ih =>
    have hc : plainChar c := hcs c (by simp)
    have hrest : ∀ x ∈ cs, plainChar x := fun x hx => hcs x (by simp [hx])
    have hstep := prompt_step_plain_char cfg p c hc
    have hcontent :
        (update_suggestions cfg { p with content := p.content ++ [c] }).content =
          p.content ++ [c] := update_suggestions_content cfg _
    simp only [List.map_cons, List.cons_append, run_keys, hstep, List.append_eq]
    rw [ih _ hrest, hcontent, List.append_assoc, List.singleton_append]

/-- C3: a session consisting of plain character keys (no backspace) followed
by the commit key answers exactly the concatenation of those characters, for
any configuration with no validator and no default.  The buffer is modelled
as the exact character sequence, so the concatenation is grapheme-cluster
exact: multi-codepoint sequences pass through untouched. -/
theorem char_sequence_concat (cfg : TextConfig) (hv : cfg.validator = none)
    (hd : cfg.default = none) (cs : List Char) (hcs : ∀ c ∈ cs, plainChar c) :
    run_keys cfg (initial_prompt cfg) (cs.map Key.char ++ [Key.char '\x0a']) =
      .answer cs := by
  have h := run_chars_append cfg hv hd cs (initial_prompt cfg) hcs
  simpa [initial_prompt] using h

/-- Witness for C3: typing `hi` and committing answers `hi`. -/
theorem char_sequence_concat_witness :
    run_keys bareCfg (initial_prompt bareCfg)
      (['h', 'i'].map Key.char ++ [Key.char '\x0a']) = .answer ['h', 'i'] :=
  char_sequence_concat bareCfg rfl rfl ['h', 'i'] (by decide)

/-! Helpers about grapheme segmentations. -/

theorem segmentation_nil {g : Str → List Str} (hg : IsSegmentation g) :
    g [] = [] := by
  obtain ⟨hflat, hne⟩ := hg []
  cases h : g [] with
  | nil => rfl
  | cons a l =>
    exfalso
    rw [h, List.flatten_cons, List.append_eq_nil] at hflat
    exact hne a (h ▸ List.mem_cons_self a l) hflat.1

theorem charGraphemes_isSegmentation : IsSegmentation charGraphemes := by
  intro s
  constructor
  · induction s with
    | nil => rfl
    | cons c cs ih => simpa [charGraphemes] using ih
  · intro piece hp
    simp only [charGraphemes, List.mem_map] at hp
    obtain ⟨c, _, rfl⟩ := hp
    simp

theorem on_change_backspace_content (cfg : TextConfig) (p : TextPrompt) :
    (on_change cfg p .backspace).content =
      ((cfg.graphemes p.content).dropLast).flatten := by
  have h := update_suggestions_content cfg
    { p with content :=
        ((cfg.graphemes p.content).take
          ((cfg.graphemes p.content).length - 1)).flatten }
  simpa [on_change, List.dropLast_eq_take] using h

theorem backspace_iter_empty (cfg : TextConfig)
    (hg : IsSegmentation cfg.graphemes) (n : Nat) (p : TextPrompt)
    (hc : p.content = []) :
    ((fun q => on_change cfg q .backspace)^[n] p).content = [] := by
  induction n generalizing p with
  | zero => simpa using hc
  | succ n ih =>
    rw [Function.iterate_succ_apply]
    refine ih _ ?_
    rw [on_change_backspace_content, hc, segmentation_nil hg]
    rfl

/-- C4: backspace removes exactly the last grapheme cluster of the buffer:
the new buffer is the concatenation of all clusters but the last, and
re-appending the removed cluster restores the old buffer.  On an empty buffer
any number of backspace presses is a no-op and the buffer stays empty. -/
theorem backspace_grapheme (cfg : TextConfig)
    (hg : IsSegmentation cfg.graphemes) (p : TextPrompt) :
    (on_change cfg p .backspace).content =
      ((cfg.graphemes p.content).dropLast).flatten ∧
    (∀ gs gl, cfg.graphemes p.content = gs ++ [gl] →
      (on_change cfg p .backspace).content ++ gl = p.content) ∧
    (p.content = [] →
      ∀ n : Nat, ((fun q => on_change cfg q .backspace)^[n] p).content = []) := by
  refine ⟨on_change_backspace_content cfg p, ?_, ?_⟩
  · intro gs gl hsplit
    rw [on_change_backspace_content, hsplit]
    have hcontent : p.content = gs.flatten ++ gl := by
      have h := (hg p.content).1
      rw [hsplit] at h
      simpa using h.symm
    simp [hcontent]
  · intro hc n
    exact backspace_iter_empty cfg hg n p hc

/-- Witness for C4: deleting from the two-character buffer `ab` leaves `a`,
and backspace twice on the empty buffer leaves it empty. -/
theorem backspace_grapheme_witness :
    (on_change bareCfg ⟨['a', 'b'], none, [], 0⟩ Key.backspace).content =
      ((bareCfg.graphemes ['a', 'b']).dropLast).flatten ∧
    ((fun q => on_change bareCfg q Key.backspace)^[2]
      (⟨[], none, [], 0⟩ : TextPrompt)).content = [] :=
  ⟨(backspace_grapheme bareCfg charGraphemes_isSegmentation
      ⟨['a', 'b'], none, [], 0⟩).1,
   (backspace_grapheme bareCfg charGraphemes_isSegmentation
      ⟨[], none, [], 0⟩).2.2 rfl 2⟩

/-- C5: a suggestion refresh replaces the list by the suggestor's output for
the current buffer and reconciles the selection: when the new list is
non-empty and the old index is at least its length, the index is clamped to
length minus one; in every other case (including a grown or changed list) it
is left unchanged. -/
theorem reconcile_selection_clamp (cfg : TextConfig) (f : Str → List Str)
    (hf : cfg.suggestor = some f) (p : TextPrompt) :
    (update_suggestions cfg p).suggested_options = f p.content ∧
    (update_suggestions cfg p).cursor_index =
      (if 0 < (f p.content).length ∧ (f p.content).length ≤ p.cursor_index
       then (f p.content).length - 1 else p.cursor_index) := by
  unfold update_suggestions
  rw [hf]
  dsimp only
  split
  · next h => simp [h]
  · next h => simp [h]

/-- Witness for C5: an out-of-range selection (index 10) is clamped to 5 by a
refresh that yields six suggestions. -/
theorem reconcile_selection_clamp_witness :
    (update_suggestions sixCfg ⟨[], none, [], 10⟩).suggested_options =
      sixSuggestor [] ∧
    (update_suggestions sixCfg ⟨[], none, [], 10⟩).cursor_index =
      (if 0 < (sixSuggestor []).length ∧ (sixSuggestor []).length ≤ 10
       then (sixSuggestor []).length - 1 else 10) :=
  reconcile_selection_clamp sixCfg sixSuggestor rfl ⟨[], none, [], 10⟩

/-- C6: with an in-range selection into a non-empty suggestion list, arrow-up
from index 0 wraps to the last index and otherwise decrements; arrow-down
from the last index wraps to 0 and otherwise increments; neither arrow key
touches the buffer or the suggestion list. -/
theorem arrow_wraparound (cfg : TextConfig) (p : TextPrompt)
    (h : p.cursor_index < p.suggested_options.length) :
    (on_change cfg p .up).content = p.content ∧
    (on_change cfg p .up).suggested_options = p.suggested_options ∧
    (on_change cfg p .down).content = p.content ∧
    (on_change cfg p .down).suggested_options = p.suggested_options ∧
    (on_change cfg p .up).cursor_index =
      (if p.cursor_index = 0 then p.suggested_options.length - 1
       else p.cursor_index - 1) ∧
    (on_change cfg p .down).cursor_index =
      (if p.cursor_index = p.suggested_options.length - 1 then 0
       else p.cursor_index + 1) := by
  have hup : on_change cfg p .up = move_cursor_up p := by
    simp [on_change]
  have hdown : on_change cfg p .down = move_cursor_down p := by
    simp [on_change]
  rw [hup, hdown]
  refine ⟨rfl, rfl, (move_cursor_down_frame p).1, (move_cursor_down_frame p).2.1,
    ?_, ?_⟩
  · unfold move_cursor_up checked_sub
    rcases Nat.eq_zero_or_pos p.cursor_index with h0 | h0
    · have hl : 1 ≤ p.suggested_options.length := by omega
      simp [h0, hl]
    · have h1 : 1 ≤ p.cursor_index := h0
      have hne : p.cursor_index ≠ 0 := by omega
      simp [h1, hne]
  · unfold move_cursor_down
    dsimp only
    by_cases hlast : p.cursor_index = p.suggested_options.length - 1
    · rw [if_pos hlast,
        if_pos (show p.cursor_index + 1 ≥ p.suggested_options.length by omega)]
    · rw [if_neg hlast,
        if_neg (show ¬ p.cursor_index + 1 ≥ p.suggested_options.length by omega)]

/-- Witness for C6: arrow-up at index 0 of a two-element suggestion list
wraps to index 1. -/
theorem arrow_wraparound_witness :
    (on_change bareCfg ⟨[], none, [['a'], ['b']], 0⟩ Key.up).cursor_index = 1 := by
  have h := (arrow_wraparound bareCfg ⟨[], none, [['a'], ['b']], 0⟩
    (by decide)).2.2.2.2.1
  simpa using h


theorem reachable_run_state (cfg : TextConfig) (p : TextPrompt) (ks : List Key)
    (h : Reachable cfg p) : Reachable cfg (run_state cfg p ks) := by
  induction ks generalizing p with
  | nil => simpa [run_state] using h
  | cons k ks ih =>
    simp only [run_state]
    split
    · rename_i q hq
      exact ih _ (Reachable.step h hq)
    · exact ih _ h

/-- Counterexample to C7: `emptyListState` is reachable, its suggestion list
is empty and its selection index is 5; arrow-up moves the index to 4, so the
index neither is 0 nor remains 0 (and arrow-down moves it to 0, which is also
not a no-op from 5). -/
theorem arrow_empty_suggestions_cex :
    Reachable sixCfg emptyListState ∧
    emptyListState.suggested_options = [] ∧
    emptyListState.cursor_index = 5 ∧
    (on_change sixCfg emptyListState .up).cursor_index = 4 := by
  refine ⟨?_, by decide, by decide, by decide⟩
  exact reachable_run_state sixCfg (initial_prompt sixCfg)
    [.down, .down, .down, .down, .down, .char 'x'] Reachable.init

/-- C7 (amended): when the suggestion list is empty, arrow-down always resets
the selection index to 0 and arrow-up decrements it by one (Nat-saturating);
in particular, when the selection index is 0 — the only possibility if the
list has never been non-empty — both arrow keys are no-ops and the index
stays 0. -/
theorem arrow_empty_suggestions (cfg : TextConfig) (p : TextPrompt)
    (h : p.suggested_options = []) :
    (on_change cfg p .up).cursor_index = p.cursor_index - 1 ∧
    (on_change cfg p .down).cursor_index = 0 ∧
    (p.cursor_index = 0 →
      (on_change cfg p .up).cursor_index = 0 ∧
      (on_change cfg p .down).cursor_index = 0) := by
  have hup : on_change cfg p .up = move_cursor_up p := by
    simp [on_change]
  have hdown : on_change cfg p .down = move_cursor_down p := by
    simp [on_change]
  rw [hup, hdown]
  have hu : (move_cursor_up p).cursor_index = p.cursor_index - 1 := by
    unfold move_cursor_up checked_sub
    rcases Nat.eq_zero_or_pos p.cursor_index with h0 | h0
    · simp [h0, h]
    · have h1 : 1 ≤ p.cursor_index := h0
      simp [h1]
  have hd : (move_cursor_down p).cursor_index = 0 := by
    unfold move_cursor_down
    dsimp only
    rw [if_pos (by simp [h])]
  exact ⟨hu, hd, fun h0 => ⟨by rw [hu, h0], hd⟩⟩

/-- Witness for the amended C7: with an empty suggestion list and the
selection index at 0, both arrow keys leave the index at 0. -/
theorem arrow_empty_suggestions_witness :
    (on_change bareCfg ⟨[], none, [], 0⟩ Key.up).cursor_index = 0 ∧
    (on_change bareCfg ⟨[], none, [], 0⟩ Key.down).cursor_index = 0 :=
  (arrow_empty_suggestions bareCfg ⟨[], none, [], 0⟩ rfl).2.2 rfl

theorem update_suggestions_options (cfg : TextConfig) (f : Str → List Str)
    (hf : cfg.suggestor = some f) (p : TextPrompt) :
    (update_suggestions cfg p).suggested_options = f p.content := by
  unfold update_suggestions
  rw [hf]
  dsimp only
  split <;> rfl

/-- C8: with an in-range selection into a non-empty suggestion list, the tab
key routes to `use_select_option`, which replaces the whole buffer with the
selected suggestion and immediately re-derives the suggestion list by running
the suggestor on that new buffer. -/
theorem tab_select_refresh (cfg : TextConfig) (f : Str → List Str)
    (hf : cfg.suggestor = some f) (p : TextPrompt)
    (h : p.cursor_index < p.suggested_options.length) :
    prompt_step cfg p (.char '\x09') = .cont (use_select_option cfg p) ∧
    (use_select_option cfg p).content =
      p.suggested_options.get ⟨p.cursor_index, h⟩ ∧
    (use_select_option cfg p).suggested_options =
      f (p.suggested_options.get ⟨p.cursor_index, h⟩) := by
  have hget : p.suggested_options.get? p.cursor_index =
      some (p.suggested_options.get ⟨p.cursor_index, h⟩) :=
    List.get?_eq_get h
  have hus : use_select_option cfg p =
      update_suggestions cfg
        { p with content := p.suggested_options.get ⟨p.cursor_index, h⟩ } := by
    unfold use_select_option
    rw [hget]
  refine ⟨by simp [prompt_step], ?_, ?_⟩
  · rw [hus]
    exact update_suggestions_content cfg _
  · rw [hus]
    exact update_suggestions_options cfg f hf _

/-- Witness for C8: in the initial state of `sixCfg` (six suggestions, cursor
at 0), tab replaces the buffer with the first suggestion `a` and the
suggestor, re-run on `a`, returns no suggestions. -/
theorem tab_select_refresh_witness :
    (use_select_option sixCfg (initial_prompt sixCfg)).content = ['a'] ∧
    (use_select_option sixCfg (initial_prompt sixCfg)).suggested_options =
      sixSuggestor ['a'] := by
  have h := tab_select_refresh sixCfg sixSuggestor rfl (initial_prompt sixCfg)
    (by decide)
  constructor
  · rw [h.2.1]
    rfl
  · rw [h.2.2]
    rfl

theorem prompt_step_cont_error (cfg : TextConfig) (p q : TextPrompt) (k : Key)
    (hk : ¬ commitKey k) (h : prompt_step cfg p k = .cont q) :
    q.error = p.error := by
  cases k with
  | backspace =>
    simp only [prompt_step] at h
    injection h with h2
    rw [← h2]
    exact on_change_error cfg p .backspace
  | up =>
    simp only [prompt_step] at h
    injection h with h2
    rw [← h2]
    exact on_change_error cfg p .up
  | down =>
    simp only [prompt_step] at h
    injection h with h2
    rw [← h2]
    exact on_change_error cfg p .down
  | other =>
    simp only [prompt_step] at h
    injection h with h2
    rw [← h2]
    exact on_change_error cfg p .other
  | ctrl c =>
    by_cases hc : c = 'c'
    · simp [prompt_step, hc] at h
    · simp only [prompt_step, if_neg hc] at h
      injection h with h2
      rw [← h2]
      exact on_change_error cfg p (.ctrl c)
  | char c =>
    have hnotcommit : ¬ (c = '\x0a' ∨ c = '\x0d') := by
      simp only [commitKey] at hk
      intro hor
      rcases hor with h1 | h1 <;> simp [h1] at hk
    by_cases ht : c = '\x09'
    · subst ht
      simp only [prompt_step, if_pos rfl] at h
      injection h with h2
      rw [← h2]
      exact use_select_option_error cfg p
    · simp only [prompt_step, if_neg ht, if_neg hnotcommit] at h
      injection h with h2
      rw [← h2]
      exact on_change_error cfg p (.char c)

/-- C9: the error field is untouched by every non-commit key event: running
any sequence of edit/navigation keys (characters including tab and clear-line
controls, backspace, arrows — anything but the commit keys) leaves the error
field exactly as it was, so an error set by a failed commit stays set. -/
theorem error_persists (cfg : TextConfig) (p : TextPrompt) (ks : List Key)
    (hks : ∀ k ∈ ks, ¬ commitKey k) :
    (run_state cfg p ks).error = p.error := by
  induction ks generalizing p with
  | nil => simp [run_state]
  | cons k ks ih =>
    have hk := hks k (by simp)
    have hrest : ∀ x ∈ ks, ¬ commitKey x := fun x hx => hks x (by simp [hx])
    simp only [run_state]
    split
    · rename_i q hq
      rw [ih _ hrest, prompt_step_cont_error cfg p q k hk hq]
    · exact ih _ hrest

/-- Witness for C9: a stored error message survives a backspace, a character,
both arrows and a tab. -/
theorem error_persists_witness :
    (run_state bareCfg ⟨['x'], some ['e'], [], 0⟩
      [Key.backspace, Key.char 'a', Key.up, Key.down, Key.char '\x09']).error =
      some ['e'] := by
  have h := error_persists bareCfg ⟨['x'], some ['e'], [], 0⟩
    [Key.backspace, Key.char 'a', Key.up, Key.down, Key.char '\x09']
    (by decide)
  simpa using h


theorem update_suggestions_cursor (cfg : TextConfig) (f : Str → List Str)
    (hf : cfg.suggestor = some f) (p : TextPrompt) :
    (update_suggestions cfg p).cursor_index =
      (if 0 < (f p.content).length ∧ (f p.content).length ≤ p.cursor_index
       then (f p.content).length - 1 else p.cursor_index) := by
  unfold update_suggestions
  rw [hf]
  dsimp only
  split
  · next hc => simp [hc]
  · next hc => simp [hc]

theorem move_cursor_up_cursor (p : TextPrompt) :
    (move_cursor_up p).cursor_index =
      (if p.cursor_index = 0 then p.suggested_options.length - 1
       else p.cursor_index - 1) := by
  unfold move_cursor_up checked_sub
  rcases Nat.eq_zero_or_pos p.cursor_index with h0 | h0
  · by_cases hl : 1 ≤ p.suggested_options.length
    · simp [h0, hl]
    · simp [h0, hl]
      omega
  · have h1 : 1 ≤ p.cursor_index := h0
    have hne : p.cursor_index ≠ 0 := by omega
    simp [h1, hne]

theorem move_cursor_down_cursor (p : TextPrompt) :
    (move_cursor_down p).cursor_index =
      (if p.cursor_index + 1 ≥ p.suggested_options.length then 0
       else p.cursor_index + 1) := by
  unfold move_cursor_down
  dsimp only
  split <;> rfl

theorem on_change_backspace_eq (cfg : TextConfig) (p : TextPrompt) :
    on_change cfg p .backspace =
      update_suggestions cfg
        { p with content :=
            ((cfg.graphemes p.content).take
              ((cfg.graphemes p.content).length - 1)).flatten } := by
  simp [on_change]

theorem on_change_up_eq (cfg : TextConfig) (p : TextPrompt) :
    on_change cfg p .up = move_cursor_up p := by
  simp [on_change]

theorem on_change_down_eq (cfg : TextConfig) (p : TextPrompt) :
    on_change cfg p .down = move_cursor_down p := by
  simp [on_change]

theorem on_change_clear_eq (cfg : TextConfig) (p : TextPrompt) (c : Char)
    (hc : c = '\x17' ∨ c = '\x18') :
    on_change cfg p (.char c) =
      update_suggestions cfg { p with content := [] } := by
  simp [on_change, hc]

theorem on_change_char_eq (cfg : TextConfig) (p : TextPrompt) (c : Char)
    (hc : ¬ (c = '\x17' ∨ c = '\x18')) :
    on_change cfg p (.char c) =
      update_suggestions cfg { p with content := p.content ++ [c] } := by
  simp [on_change, hc]

theorem inBounds_initial (cfg : TextConfig) : InBounds (initial_prompt cfg) := by
  intro hne
  exact List.length_pos.mpr hne

theorem inBounds_update_suggestions (cfg : TextConfig) (p : TextPrompt)
    (h : InBounds p) : InBounds (update_suggestions cfg p) := by
  cases hs : cfg.suggestor with
  | none =>
    have heq : update_suggestions cfg p = p := by
      unfold update_suggestions
      rw [hs]
    rwa [heq]
  | some f =>
    have ho := update_suggestions_options cfg f hs p
    have hc := update_suggestions_cursor cfg f hs p
    unfold InBounds
    rw [ho, hc]
    intro hne
    have hpos : 0 < (f p.content).length := List.length_pos.mpr hne
    split
    · omega
    · next hcond => omega

theorem inBounds_move_cursor_up (p : TextPrompt) (h : InBounds p) :
    InBounds (move_cursor_up p) := by
  unfold InBounds at h ⊢
  have hopts : (move_cursor_up p).suggested_options = p.suggested_options := rfl
  rw [hopts, move_cursor_up_cursor]
  intro hne
  have hlen := List.length_pos.mpr hne
  have hlt := h hne
  split <;> omega

theorem inBounds_move_cursor_down (p : TextPrompt) (_h : InBounds p) :
    InBounds (move_cursor_down p) := by
  unfold InBounds
  have hopts : (move_cursor_down p).suggested_options = p.suggested_options :=
    (move_cursor_down_frame p).2.1
  rw [hopts, move_cursor_down_cursor]
  intro hne
  have hlen := List.length_pos.mpr hne
  split
  · next hcond => omega
  · next hcond => omega

theorem inBounds_on_change (cfg : TextConfig) (p : TextPrompt) (k : Key)
    (h : InBounds p) : InBounds (on_change cfg p k) := by
  cases k with
  | backspace =>
    rw [on_change_backspace_eq cfg p]
    exact inBounds_update_suggestions cfg _ h
  | up =>
    rw [on_change_up_eq cfg p]
    exact inBounds_move_cursor_up p h
  | down =>
    rw [on_change_down_eq cfg p]
    exact inBounds_move_cursor_down p h
  | char c =>
    by_cases hc : c = '\x17' ∨ c = '\x18'
    · rw [on_change_clear_eq cfg p c hc]
      exact inBounds_update_suggestions cfg _ h
    · rw [on_change_char_eq cfg p c hc]
      exact inBounds_update_suggestions cfg _ h
  | ctrl c => exact h
  | other => exact h

theorem inBounds_use_select_option (cfg : TextConfig) (p : TextPrompt)
    (h : InBounds p) : InBounds (use_select_option cfg p) := by
  unfold use_select_option
  cases p.suggested_options.get? p.cursor_index with
  | none => exact h
  | some ans => exact inBounds_update_suggestions cfg _ h

theorem inBounds_prompt_step (cfg : TextConfig) (p q : TextPrompt) (k : Key)
    (h : InBounds p) (hs : prompt_step cfg p k = .cont q) : InBounds q := by
  cases k with
  | backspace =>
    simp only [prompt_step] at hs
    injection hs with h2
    rw [← h2]
    exact inBounds_on_change cfg p .backspace h
  | up =>
    simp only [prompt_step] at hs
    injection hs with h2
    rw [← h2]
    exact inBounds_on_change cfg p .up h
  | down =>
    simp only [prompt_step] at hs
    injection hs with h2
    rw [← h2]
    exact inBounds_on_change cfg p .down h
  | other =>
    simp only [prompt_step] at hs
    injection hs with h2
    rw [← h2]
    exact inBounds_on_change cfg p .other h
  | ctrl c =>
    by_cases hc : c = 'c'
    · simp [prompt_step, hc] at hs
    · simp only [prompt_step, if_neg hc] at hs
      injection hs with h2
      rw [← h2]
      exact inBounds_on_change cfg p (.ctrl c) h
  | char c =>
    by_cases ht : c = '\x09'
    · subst ht
      simp only [prompt_step, if_pos rfl] at hs
      injection hs with h2
      rw [← h2]
      exact inBounds_use_select_option cfg p h
    · by_cases hcom : c = '\x0a' ∨ c = '\x0d'
      · simp only [prompt_step, if_neg ht, if_pos hcom] at hs
        cases hfa : get_final_answer cfg p with
        | ok a =>
          rw [hfa] at hs
          cases hs
        | error e =>
          rw [hfa] at hs
          injection hs with h2
          rw [← h2]
          exact h
      · simp only [prompt_step, if_neg ht, if_neg hcom] at hs
        injection hs with h2
        rw [← h2]
        exact inBounds_on_change cfg p (.char c) h

theorem inBounds_reachable (cfg : TextConfig) (p : TextPrompt)
    (h : Reachable cfg p) : InBounds p := by
  induction h with
  | init => exact inBounds_initial cfg
  | step hr hs ih => exact inBounds_prompt_step cfg _ _ _ ih hs

/-- C10: in every state reachable from the initial prompt state, a non-empty
suggestion list has the selection index strictly inside it, so indexing the
list at the selection index cannot go out of bounds. -/
theorem cursor_in_bounds (cfg : TextConfig) (p : TextPrompt)
    (h : Reachable cfg p) (hne : p.suggested_options ≠ []) :
    p.cursor_index < p.suggested_options.length :=
  inBounds_reachable cfg p h hne

/-- Witness for C10: the invariant instantiated at the initial state of
`sixCfg`, whose suggestion list has six entries. -/
theorem cursor_in_bounds_witness :
    (initial_prompt sixCfg).suggested_options ≠ [] ∧
    (initial_prompt sixCfg).cursor_index <
      (initial_prompt sixCfg).suggested_options.length :=
  ⟨by decide, cursor_in_bounds sixCfg (initial_prompt sixCfg)
    Reachable.init (by decide)⟩
